import Mathlib

/-!
Verification of the TZif (RFC 8536) decoder library.

The definitions below are a shallow embedding of the decoder: byte streams
are `List Nat` (each element a byte value), the `io::Read` cursor is made
explicit by threading the remaining stream through each reader, fallible
operations return `Except ParseErr`, and a Rust panic during iteration is
modelled by the `StepResult.fault` outcome.  Machine integers are modelled
by `Int` with explicit big-endian decoding and twos-complement sign
interpretation (`toSigned`).
-/

namespace Tzif

/-- Decoder failures: a short read from the underlying stream
(`io::ErrorKind::UnexpectedEof` from `read_exact`), or an
`InvalidData`-kind error constructed by the `bogus` helper. -/
inductive ParseErr where
  | ioShortRead : ParseErr
  | invalidFormat (msg : String) : ParseErr
deriving DecidableEq

/-- Standard/wall indicator (`IsStd` in the source). -/
inductive IsStd where
  | Standard : IsStd
  | Wall : IsStd
deriving DecidableEq

/-- UT/local indicator (`IsUT` in the source). -/
inductive IsUT where
  | UT : IsUT
  | Local : IsUT
deriving DecidableEq

/-- `LocalTimeTypeRecord`: UTC offset in seconds (i32), DST flag,
designation index (u8). -/
structure LocalTimeTypeRecord where
  ut_off_secs : Int
  is_dst : Bool
  desig_idx : Nat
deriving DecidableEq

/-- `TimeZoneInfo`: the decoded database. -/
structure TimeZoneInfo where
  version : Nat
  transition_times : List Int
  transition_types : List Nat
  local_time_types : List LocalTimeTypeRecord
  time_zone_designations : List Nat
  leap_second_records : List (Int × Int)
  is_std : List IsStd
  is_ut : List IsUT
deriving DecidableEq

/-- The decoded header fields retained by `parse_internal`: the mapped
version (1, 2 or 3) and the six counts. -/
structure Header where
  version : Nat
  isutcnt : Nat
  isstdcnt : Nat
  leapcnt : Nat
  timecnt : Nat
  typecnt : Nat
  charcnt : Nat
deriving DecidableEq

/-- Big-endian interpretation of a byte list
(`u32::from_be` / `from_be_bytes`). -/
def beNat (bs : List Nat) : Nat :=
  bs.foldl (fun acc b => acc * 256 + b) 0

/-- Twos-complement signed reading of a `w`-bit big-endian value
(`i32::from_be_bytes` for `w = 32`, `i64::from_be_bytes` for `w = 64`). -/
def toSigned (w : Nat) (v : Nat) : Int :=
  if v < 2 ^ (w - 1) then (v : Int) else (v : Int) - 2 ^ w

/-- `Read::read_exact` into an `n`-byte buffer: returns the buffer and the
remaining stream, or fails when fewer than `n` bytes remain. -/
def readExact (n : Nat) (s : List Nat) : Except ParseErr (List Nat × List Nat) :=
  if n ≤ s.length then .ok (s.take n, s.drop n) else .error .ioShortRead

/-- `read_time`: a 32-bit big-endian time sign-extended to 64 bits in v1
mode, a 64-bit big-endian time otherwise. -/
def readTime : Bool → List Nat → Except ParseErr (Int × List Nat)
  | true, s =>
    match readExact 4 s with
    | .error e => .error e
    | .ok (buf, s1) => .ok (toSigned 32 (beNat buf), s1)
  | false, s =>
    match readExact 8 s with
    | .error e => .error e
    | .ok (buf, s1) => .ok (toSigned 64 (beNat buf), s1)

/-- The `for _ in 0..timecnt` loop pushing transition times. -/
def readTimes (v1 : Bool) : Nat → List Nat → Except ParseErr (List Int × List Nat)
  | 0, s => .ok ([], s)
  | n + 1, s =>
    match readTime v1 s with
    | .error e => .error e
    | .ok (t, s1) =>
      match readTimes v1 n s1 with
      | .error e => .error e
      | .ok (ts, s2) => .ok (t :: ts, s2)

/-- The `for _ in 0..typecnt` loop reading 6-byte local time type records:
a 32-bit big-endian offset, a DST byte that must be 0 or 1, and a
designation-index byte. -/
def readLocalTimeTypes : Nat → List Nat → Except ParseErr (List LocalTimeTypeRecord × List Nat)
  | 0, s => .ok ([], s)
  | n + 1, s =>
    match readExact 4 s with
    | .error e => .error e
    | .ok (buf, s1) =>
      match readExact 2 s1 with
      | .error e => .error e
      | .ok (ib, s2) =>
        if 1 < ib.getD 0 0 then .error (.invalidFormat "is_dst not zero or one")
        else
          match readLocalTimeTypes n s2 with
          | .error e => .error e
          | .ok (rest, s3) =>
            .ok ({ ut_off_secs := toSigned 32 (beNat buf),
                   is_dst := ib.getD 0 0 == 1,
                   desig_idx := ib.getD 1 0 } :: rest, s3)

/-- The `for _ in 0..leapcnt` loop: a time in the current mode followed by
a 32-bit big-endian correction. -/
def readLeaps (v1 : Bool) : Nat → List Nat → Except ParseErr (List (Int × Int) × List Nat)
  | 0, s => .ok ([], s)
  | n + 1, s =>
    match readTime v1 s with
    | .error e => .error e
    | .ok (t, s1) =>
      match readExact 4 s1 with
      | .error e => .error e
      | .ok (buf, s2) =>
        match readLeaps v1 n s2 with
        | .error e => .error e
        | .ok (rest, s3) => .ok ((t, toSigned 32 (beNat buf)) :: rest, s3)

/-- Decoding of the standard/wall indicator bytes: 0 is Wall, 1 is
Standard, anything else is rejected. -/
def decodeIsStd : List Nat → Except ParseErr (List IsStd)
  | [] => .ok []
  | b :: bs =>
    match b with
    | 0 =>
      match decodeIsStd bs with
      | .error e => .error e
      | .ok l => .ok (IsStd.Wall :: l)
    | 1 =>
      match decodeIsStd bs with
      | .error e => .error e
      | .ok l => .ok (IsStd.Standard :: l)
    | _ => .error (.invalidFormat "std/wall not zero or one")

/-- Decoding of the UT/local indicator bytes: 0 is Local, 1 is UT,
anything else is rejected. -/
def decodeIsUT : List Nat → Except ParseErr (List IsUT)
  | [] => .ok []
  | b :: bs =>
    match b with
    | 0 =>
      match decodeIsUT bs with
      | .error e => .error e
      | .ok l => .ok (IsUT.Local :: l)
    | 1 =>
      match decodeIsUT bs with
      | .error e => .error e
      | .ok l => .ok (IsUT.UT :: l)
    | _ => .error (.invalidFormat "ut/local not zero or one")

/-- The disallowed indicator combination `(IsStd::Wall, IsUT::UT)`. -/
def badCombo : IsStd → IsUT → Bool
  | IsStd.Wall, IsUT.UT => true
  | _, _ => false

/-- The validation loop over `0 .. max(is_std.len(), is_ut.len())`,
substituting Wall and Local for missing indicators
(`get(i).unwrap_or(...)`). -/
def comboViolation (lstd : List IsStd) (lut : List IsUT) : Bool :=
  (List.range (max lstd.length lut.length)).any fun i =>
    badCombo (lstd.getD i IsStd.Wall) (lut.getD i IsUT.Local)

/-- The transition-type range check: the source rejects an index only when
it is strictly greater than `local_time_types.len()`. -/
def typeViolation (types : List Nat) (n : Nat) : Bool :=
  types.any fun t => decide (n < t)

/-- The two validation passes run at the end of `parse_internal`
(source lines 203-215), in source order. -/
def checkResult (r : TimeZoneInfo) : Except ParseErr TimeZoneInfo :=
  if comboViolation r.is_std r.is_ut then
    .error (.invalidFormat "transition times cannot be universal + wall")
  else if typeViolation r.transition_types r.local_time_types.length then
    .error (.invalidFormat "one or more transition types out of range")
  else .ok r

/-- The byte string "TZif". -/
def magicBytes : List Nat := [0x54, 0x5a, 0x69, 0x66]

/-- The six counts of the header buffer as a `Header` with the given
(already mapped) version: big-endian 32-bit fields at offsets 20, 24, 28,
32, 36 and 40. -/
def mkHdr (ver : Nat) (hbuf : List Nat) : Header :=
  { version := ver,
    isutcnt := beNat ((hbuf.drop 20).take 4),
    isstdcnt := beNat ((hbuf.drop 24).take 4),
    leapcnt := beNat ((hbuf.drop 28).take 4),
    timecnt := beNat ((hbuf.drop 32).take 4),
    typecnt := beNat ((hbuf.drop 36).take 4),
    charcnt := beNat ((hbuf.drop 40).take 4) }

/-- The 44-byte header read, magic check, `isstdcnt`/`isutcnt` cross
checks, and version mapping of `parse_internal` (source lines 120-143). -/
def decodeHeader (s : List Nat) : Except ParseErr (Header × List Nat) :=
  match readExact 44 s with
  | .error e => .error e
  | .ok (hbuf, s1) =>
    if hbuf.take 4 ≠ magicBytes then
      .error (.invalidFormat "unrecognized magic in header")
    else if beNat ((hbuf.drop 24).take 4) ≠ 0 ∧
        beNat ((hbuf.drop 24).take 4) ≠ beNat ((hbuf.drop 36).take 4) then
      .error (.invalidFormat "isstdcnt not zero or equal to typecnt")
    else if beNat ((hbuf.drop 20).take 4) ≠ 0 ∧
        beNat ((hbuf.drop 20).take 4) ≠ beNat ((hbuf.drop 36).take 4) then
      .error (.invalidFormat "isutcnt not zero or equal to typecnt")
    else
      match hbuf.getD 4 0 with
      | 0 => .ok (mkHdr 1 hbuf, s1)
      | 50 => .ok (mkHdr 2 hbuf, s1)
      | 51 => .ok (mkHdr 3 hbuf, s1)
      | _ => .error (.invalidFormat "unsupported version")

/-- `TimeZoneInfo::parse_internal`: header, the six body blocks in order,
then the two validation passes.  The returned pair carries the remaining
stream, mirroring the reader position after the call. -/
def parse_internal (v1 : Bool) (s : List Nat) : Except ParseErr (TimeZoneInfo × List Nat) :=
  match decodeHeader s with
  | .error e => .error e
  | .ok (h, s1) =>
    match readTimes v1 h.timecnt s1 with
    | .error e => .error e
    | .ok (tt, s2) =>
      match readExact h.timecnt s2 with
      | .error e => .error e
      | .ok (ttypes, s3) =>
        match readLocalTimeTypes h.typecnt s3 with
        | .error e => .error e
        | .ok (ltt, s4) =>
          match readExact h.charcnt s4 with
          | .error e => .error e
          | .ok (desig, s5) =>
            match readLeaps v1 h.leapcnt s5 with
            | .error e => .error e
            | .ok (leaps, s6) =>
              match readExact h.isstdcnt s6 with
              | .error e => .error e
              | .ok (stdbuf, s7) =>
                match decodeIsStd stdbuf with
                | .error e => .error e
                | .ok lstd =>
                  match readExact h.isutcnt s7 with
                  | .error e => .error e
                  | .ok (utbuf, s8) =>
                    match decodeIsUT utbuf with
                    | .error e => .error e
                    | .ok lut =>
                      match checkResult
                        { version := h.version, transition_times := tt,
                          transition_types := ttypes, local_time_types := ltt,
                          time_zone_designations := desig,
                          leap_second_records := leaps,
                          is_std := lstd, is_ut := lut } with
                      | .error e => .error e
                      | .ok r => .ok (r, s8)

/-- `TimeZoneInfo::parse`: the mandatory v1-mode pass, then for version 2
or 3 a best-effort 64-bit pass whose failure is discarded
(`.or(Ok(v1_result))`). -/
def parse (s : List Nat) : Except ParseErr TimeZoneInfo :=
  match parse_internal true s with
  | .error e => .error e
  | .ok (v1r, rest) =>
    if v1r.version = 1 then .ok v1r
    else
      match parse_internal false rest with
      | .ok (r, _) => .ok r
      | .error _ => .ok v1r

/-- One step budget per remaining byte for the designation scan loop: the
cursor `i` advances only while `blob.get(i)` is `Some`, so the loop runs
at most `blob.length - i` times before exiting. -/
def scanLoop : Nat → List Nat → Nat → Nat
  | 0, _, i => i
  | k + 1, blob, i => if blob.getD i 0 = 0 then i else scanLoop k blob (i + 1)

/-- The `while let Some(b) = designations.get(dend)` scan of
`local_time_type`: advances from `i` to the first NUL byte at or after
`i`, or the end of the blob (where `get` returns `None`). -/
def scanEnd (blob : List Nat) (i : Nat) : Nat :=
  scanLoop (blob.length - i) blob i

/-- The borrowed view `LocalTimeType` handed out by the iterator.  The
source exposes the designation as `&str`; we model the underlying byte
slice.  (The source additionally unwraps a UTF-8 check on these bytes,
panicking on invalid text.) -/
structure LocalTimeType where
  desig : List Nat
  ut_offset_secs : Int
  is_dst : Bool
deriving DecidableEq

/-- `TimeZoneInfo::local_time_type`: indexes `local_time_types` (a panic
when out of range, modelled by `none`), scans the designation blob, and
slices `[dstart..dend]` (a panic when `dstart` exceeds the blob length,
modelled by `none`). -/
def local_time_type (tz : TimeZoneInfo) (idx : Nat) : Option LocalTimeType :=
  match tz.local_time_types.get? idx with
  | none => none
  | some typ =>
    let dstart := typ.desig_idx
    let dend := scanEnd tz.time_zone_designations dstart
    if dstart ≤ tz.time_zone_designations.length then
      some { desig := (tz.time_zone_designations.take dend).drop dstart,
             ut_offset_secs := typ.ut_off_secs,
             is_dst := typ.is_dst }
    else none

/-- The three-way `Time` interpretation of a raw instant. -/
inductive Time where
  | LocalWall (t : Int) : Time
  | LocalStandard (t : Int) : Time
  | UT (t : Int) : Time
deriving DecidableEq

/-- Two's-complement wrap-around of a signed 64-bit machine integer:
the value an `i64` addition produces on overflow (release-mode
semantics; with overflow checks the program aborts instead). -/
def wrapI64 (x : Int) : Int :=
  (x + 2 ^ 63) % 2 ^ 64 - 2 ^ 63

/-- `Time::to_ut`.  Each `+` in the source is an `i64` addition, so each
sum is reduced by `wrapI64`; the `UT` arm returns the stored value
unchanged. -/
def to_ut (time : Time) (l : LocalTimeType) : Int :=
  match time with
  | Time.UT t => t
  | Time.LocalStandard t => wrapI64 (t + l.ut_offset_secs)
  | Time.LocalWall t =>
    wrapI64 (wrapI64 (t + l.ut_offset_secs) + (if l.is_dst then 60 * 60 else 0))

/-- Outcome of one `TransitionIterator::next` call: the iterator is
exhausted (`None`), yields a transition (`Some`), or panics (`fault`:
an out-of-bounds index, or the disallowed wall+universal arm). -/
inductive StepResult where
  | done : StepResult
  | yieldPair (t : Time) (l : LocalTimeType) : StepResult
  | fault : StepResult
deriving DecidableEq

/-- `TransitionIterator::next` at position `idx`: after the length guard
it indexes `transition_times`, `transition_types`, the local time type,
and then `is_std[typ_idx]` and `is_ut[typ_idx]` directly — with no
default for missing indicators. -/
def iterNext (tz : TimeZoneInfo) (idx : Nat) : StepResult :=
  if tz.transition_times.length ≤ idx then .done
  else
    match tz.transition_times.get? idx with
    | none => .fault
    | some at_ts =>
      match tz.transition_types.get? idx with
      | none => .fault
      | some typ_idx =>
        match local_time_type tz typ_idx with
        | none => .fault
        | some l =>
          match tz.is_std.get? typ_idx, tz.is_ut.get? typ_idx with
          | some IsStd.Standard, some IsUT.UT => .yieldPair (Time.UT at_ts) l
          | some IsStd.Standard, some IsUT.Local => .yieldPair (Time.LocalStandard at_ts) l
          | some IsStd.Wall, some IsUT.UT => .fault
          | some IsStd.Wall, some IsUT.Local => .yieldPair (Time.LocalWall at_ts) l
          | _, _ => .fault

/-! ### Concrete byte streams used as test vectors -/

/-- The four big-endian bytes of a 32-bit count. -/
def be4 (n : Nat) : List Nat :=
  [n / 2 ^ 24 % 256, n / 2 ^ 16 % 256, n / 2 ^ 8 % 256, n % 256]

/-- A 44-byte TZif header: magic, version byte, 15 reserved zero bytes,
then the six counts in wire order. -/
def mkHeaderBytes (ver isut isstd leap time typ char : Nat) : List Nat :=
  magicBytes ++ [ver] ++ List.replicate 15 0 ++
    be4 isut ++ be4 isstd ++ be4 leap ++ be4 time ++ be4 typ ++ be4 char

/-- A v1 stream with `timecnt = 1`, `typecnt = 1`, `charcnt = 1` whose
single transition-type entry is 1 — equal to `typecnt`, hence out of range
as an index into `local_time_types`. -/
def c1Stream : List Nat :=
  mkHeaderBytes 0 0 0 0 1 1 1 ++ [0, 0, 0, 0] ++ [1] ++ [0, 0, 0, 0, 0, 0] ++ [0]

/-- The database the decoder produces from `c1Stream`. -/
def c1Db : TimeZoneInfo :=
  { version := 1, transition_times := [0], transition_types := [1],
    local_time_types := [{ ut_off_secs := 0, is_dst := false, desig_idx := 0 }],
    time_zone_designations := [0], leap_second_records := [],
    is_std := [], is_ut := [] }

/-- The minimal synthetic stream of the specification: `timecnt = 1`,
`typecnt = 1`, `charcnt = 4`, transition time 1000, type index 0, one
local time type with offset 3600, designation blob "UTC" plus NUL, and
empty leap, std/wall and ut/local tables. -/
def c2Stream : List Nat :=
  mkHeaderBytes 0 0 0 0 1 1 4 ++ [0, 0, 3, 232] ++ [0] ++
    [0, 0, 14, 16, 0, 0] ++ [85, 84, 67, 0]

/-- The database the decoder produces from `c2Stream`. -/
def c2Db : TimeZoneInfo :=
  { version := 1, transition_times := [1000], transition_types := [0],
    local_time_types := [{ ut_off_secs := 3600, is_dst := false, desig_idx := 0 }],
    time_zone_designations := [85, 84, 67, 0], leap_second_records := [],
    is_std := [], is_ut := [] }

/-- A version-2 stream consisting of a complete all-zero-count v1 body and
nothing after it: the second (64-bit) pass hits end of stream. -/
def v2Stream : List Nat := mkHeaderBytes 50 0 0 0 0 0 0

/-- The database the v1-mode pass produces from `v2Stream`. -/
def v2Db : TimeZoneInfo :=
  { version := 2, transition_times := [], transition_types := [],
    local_time_types := [], time_zone_designations := [],
    leap_second_records := [], is_std := [], is_ut := [] }

/-- The header decoded from `c2Stream`. -/
def c2Hdr : Header :=
  { version := 1, isutcnt := 0, isstdcnt := 0, leapcnt := 0,
    timecnt := 1, typecnt := 1, charcnt := 4 }

/-- A database carrying the disallowed `(Wall, UT)` indicator pair. -/
def c6r : TimeZoneInfo :=
  { version := 1, transition_times := [], transition_types := [],
    local_time_types := [], time_zone_designations := [],
    leap_second_records := [], is_std := [IsStd.Wall], is_ut := [IsUT.UT] }

/-- A 44-byte header whose `isstdcnt` is 5 while `typecnt` is 0. -/
def c7Stream : List Nat := mkHeaderBytes 0 0 5 0 0 0 0

/-- A complete all-zero-count v1 stream. -/
def c8Stream : List Nat := mkHeaderBytes 0 0 0 0 0 0 0

/-- The database decoded from `c8Stream`. -/
def c8Db : TimeZoneInfo :=
  { version := 1, transition_times := [], transition_types := [],
    local_time_types := [], time_zone_designations := [],
    leap_second_records := [], is_std := [], is_ut := [] }

/-- A database whose single local time type has designation index 1 into
the blob `[65, 66, 0, 67]`. -/
def tz9 : TimeZoneInfo :=
  { version := 1, transition_times := [], transition_types := [],
    local_time_types := [{ ut_off_secs := 0, is_dst := false, desig_idx := 1 }],
    time_zone_designations := [65, 66, 0, 67], leap_second_records := [],
    is_std := [], is_ut := [] }

/-- A database with an omitted std/wall table and a UT indicator. -/
def c10r : TimeZoneInfo :=
  { version := 1, transition_times := [], transition_types := [],
    local_time_types := [], time_zone_designations := [],
    leap_second_records := [], is_std := [], is_ut := [IsUT.UT] }

/-- A local rule with DST set. -/
def ruleDst : LocalTimeType :=
  { desig := [80, 68, 84], ut_offset_secs := -28800, is_dst := true }

/-- A local rule without DST. -/
def ruleStd : LocalTimeType :=
  { desig := [80, 83, 84], ut_offset_secs := -28800, is_dst := false }

/-- A local rule with offset +1 second, used at the upper end of the
signed 64-bit range. -/
def ruleOne : LocalTimeType :=
  { desig := [], ut_offset_secs := 1, is_dst := false }

/-! ### Basic facts about the stream readers -/

theorem readExact_ok {n : Nat} {s b r : List Nat}
    (h : readExact n s = .ok (b, r)) :
    b = s.take n ∧ r = s.drop n ∧ n ≤ s.length := by
  unfold readExact at h
  split at h
  · rename_i hle
    simp only [Except.ok.injEq, Prod.mk.injEq] at h
    exact ⟨h.1.symm, h.2.symm, hle⟩
  · exact Except.noConfusion h

theorem readExact_length {n : Nat} {s b r : List Nat}
    (h : readExact n s = .ok (b, r)) : b.length = n := by
  obtain ⟨hb, _, hle⟩ := readExact_ok h
  subst hb
  rw [List.length_take]
  omega

theorem readExact_append {n : Nat} {s t b r : List Nat}
    (h : readExact n s = .ok (b, r)) :
    readExact n (s ++ t) = .ok (b, r ++ t) := by
  obtain ⟨hb, hr, hle⟩ := readExact_ok h
  subst hb; subst hr
  unfold readExact
  rw [if_pos (by rw [List.length_append]; omega)]
  rw [List.take_append_of_le_length hle, List.drop_append_of_le_length hle]

theorem readTime_append {v1 : Bool} {s t r : List Nat} {x : Int}
    (h : readTime v1 s = .ok (x, r)) :
    readTime v1 (s ++ t) = .ok (x, r ++ t) := by
  cases v1
  case false =>
    simp only [readTime] at h ⊢
    split at h
    · exact Except.noConfusion h
    · rename_i x1 buf s1 heq
      rw [readExact_append heq]
      dsimp only
      simp only [Except.ok.injEq, Prod.mk.injEq] at h ⊢
      exact ⟨h.1, by rw [← h.2]⟩
  case true =>
    simp only [readTime] at h ⊢
    split at h
    · exact Except.noConfusion h
    · rename_i x1 buf s1 heq
      rw [readExact_append heq]
      dsimp only
      simp only [Except.ok.injEq, Prod.mk.injEq] at h ⊢
      exact ⟨h.1, by rw [← h.2]⟩

theorem readTimes_length {v1 : Bool} : ∀ {n : Nat} {s : List Nat} {ts : List Int} {r : List Nat},
    readTimes v1 n s = .ok (ts, r) → ts.length = n := by
  intro n
  induction n with
  | zero =>
    intro s ts r h
    unfold readTimes at h
    simp only [Except.ok.injEq, Prod.mk.injEq] at h
    rw [← h.1]
    rfl
  | succ n ih =>
    intro s ts r h
    unfold readTimes at h
    split at h
    · exact Except.noConfusion h
    · split at h
      · exact Except.noConfusion h
      · rename_i x1 t0 s1 heq1 x2 ts0 s2 heq2
        simp only [Except.ok.injEq, Prod.mk.injEq] at h
        rw [← h.1]
        simp [ih heq2]

theorem readTimes_append {v1 : Bool} : ∀ {n : Nat} {s r : List Nat} {ts : List Int}
    (t : List Nat), readTimes v1 n s = .ok (ts, r) →
    readTimes v1 n (s ++ t) = .ok (ts, r ++ t) := by
  intro n
  induction n with
  | zero =>
    intro s r ts t h
    unfold readTimes at h
    simp only [Except.ok.injEq, Prod.mk.injEq] at h
    rw [← h.1, ← h.2]
    rfl
  | succ n ih =>
    intro s r ts t h
    unfold readTimes at h ⊢
    split at h
    · exact Except.noConfusion h
    · split at h
      · exact Except.noConfusion h
      · rename_i x1 t0 s1 heq1 x2 ts0 s2 heq2
        rw [readTime_append heq1]
        dsimp only
        rw [ih t heq2]
        dsimp only
        simp only [Except.ok.injEq, Prod.mk.injEq] at h ⊢
        exact ⟨h.1, by rw [← h.2]⟩

theorem readLocalTimeTypes_length : ∀ {n : Nat} {s r : List Nat}
    {ls : List LocalTimeTypeRecord}, readLocalTimeTypes n s = .ok (ls, r) →
    ls.length = n := by
  intro n
  induction n with
  | zero =>
    intro s r ls h
    unfold readLocalTimeTypes at h
    simp only [Except.ok.injEq, Prod.mk.injEq] at h
    rw [← h.1]
    rfl
  | succ n ih =>
    intro s r ls h
    unfold readLocalTimeTypes at h
    split at h
    · exact Except.noConfusion h
    · split at h
      · exact Except.noConfusion h
      · split at h
        · exact Except.noConfusion h
        · split at h
          · exact Except.noConfusion h
          · rename_i x1 buf s1 heq1 x2 ib s2 heq2 hdst x3 rest s3 heq3
            simp only [Except.ok.injEq, Prod.mk.injEq] at h
            rw [← h.1]
            simp [ih heq3]

theorem readLocalTimeTypes_append : ∀ {n : Nat} {s r : List Nat}
    {ls : List LocalTimeTypeRecord} (t : List Nat),
    readLocalTimeTypes n s = .ok (ls, r) →
    readLocalTimeTypes n (s ++ t) = .ok (ls, r ++ t) := by
  intro n
  induction n with
  | zero =>
    intro s r ls t h
    unfold readLocalTimeTypes at h
    simp only [Except.ok.injEq, Prod.mk.injEq] at h
    rw [← h.1, ← h.2]
    rfl
  | succ n ih =>
    intro s r ls t h
    unfold readLocalTimeTypes at h ⊢
    split at h
    · exact Except.noConfusion h
    · split at h
      · exact Except.noConfusion h
      · split at h
        · exact Except.noConfusion h
        · split at h
          · exact Except.noConfusion h
          · rename_i x1 buf s1 heq1 x2 ib s2 heq2 hdst x3 rest s3 heq3
            rw [readExact_append heq1]
            dsimp only
            rw [readExact_append heq2]
            dsimp only
            rw [if_neg hdst]
            rw [ih t heq3]
            dsimp only
            simp only [Except.ok.injEq, Prod.mk.injEq] at h ⊢
            exact ⟨h.1, by rw [← h.2]⟩

theorem readLeaps_length {v1 : Bool} : ∀ {n : Nat} {s r : List Nat}
    {ls : List (Int × Int)}, readLeaps v1 n s = .ok (ls, r) → ls.length = n := by
  intro n
  induction n with
  | zero =>
    intro s r ls h
    unfold readLeaps at h
    simp only [Except.ok.injEq, Prod.mk.injEq] at h
    rw [← h.1]
    rfl
  | succ n ih =>
    intro s r ls h
    unfold readLeaps at h
    split at h
    · exact Except.noConfusion h
    · split at h
      · exact Except.noConfusion h
      · split at h
        · exact Except.noConfusion h
        · rename_i x1 t0 s1 heq1 x2 buf s2 heq2 x3 rest s3 heq3
          simp only [Except.ok.injEq, Prod.mk.injEq] at h
          rw [← h.1]
          simp [ih heq3]

theorem readLeaps_append {v1 : Bool} : ∀ {n : Nat} {s r : List Nat}
    {ls : List (Int × Int)} (t : List Nat), readLeaps v1 n s = .ok (ls, r) →
    readLeaps v1 n (s ++ t) = .ok (ls, r ++ t) := by
  intro n
  induction n with
  | zero =>
    intro s r ls t h
    unfold readLeaps at h
    simp only [Except.ok.injEq, Prod.mk.injEq] at h
    rw [← h.1, ← h.2]
    rfl
  | succ n ih =>
    intro s r ls t h
    unfold readLeaps at h ⊢
    split at h
    · exact Except.noConfusion h
    · split at h
      · exact Except.noConfusion h
      · split at h
        · exact Except.noConfusion h
        · rename_i x1 t0 s1 heq1 x2 buf s2 heq2 x3 rest s3 heq3
          rw [readTime_append heq1]
          dsimp only
          rw [readExact_append heq2]
          dsimp only
          rw [ih t heq3]
          dsimp only
          simp only [Except.ok.injEq, Prod.mk.injEq] at h ⊢
          exact ⟨h.1, by rw [← h.2]⟩

theorem decodeIsStd_length : ∀ {bs : List Nat} {l : List IsStd},
    decodeIsStd bs = .ok l → l.length = bs.length := by
  intro bs
  induction bs with
  | nil =>
    intro l h
    unfold decodeIsStd at h
    simp only [Except.ok.injEq] at h
    rw [← h]
    rfl
  | cons b bs ih =>
    intro l h
    unfold decodeIsStd at h
    split at h <;> try exact Except.noConfusion h
    · split at h
      · exact Except.noConfusion h
      · rename_i x1 l0 heq
        simp only [Except.ok.injEq] at h
        rw [← h]
        simp [ih heq]
    · split at h
      · exact Except.noConfusion h
      · rename_i x1 l0 heq
        simp only [Except.ok.injEq] at h
        rw [← h]
        simp [ih heq]

theorem decodeIsUT_length : ∀ {bs : List Nat} {l : List IsUT},
    decodeIsUT bs = .ok l → l.length = bs.length := by
  intro bs
  induction bs with
  | nil =>
    intro l h
    unfold decodeIsUT at h
    simp only [Except.ok.injEq] at h
    rw [← h]
    rfl
  | cons b bs ih =>
    intro l h
    unfold decodeIsUT at h
    split at h <;> try exact Except.noConfusion h
    · split at h
      · exact Except.noConfusion h
      · rename_i x1 l0 heq
        simp only [Except.ok.injEq] at h
        rw [← h]
        simp [ih heq]
    · split at h
      · exact Except.noConfusion h
      · rename_i x1 l0 heq
        simp only [Except.ok.injEq] at h
        rw [← h]
        simp [ih heq]

theorem checkResult_ok {r r2 : TimeZoneInfo} (h : checkResult r = .ok r2) :
    r2 = r ∧ comboViolation r.is_std r.is_ut = false ∧
      typeViolation r.transition_types r.local_time_types.length = false := by
  unfold checkResult at h
  split at h
  · exact Except.noConfusion h
  · split at h
    · exact Except.noConfusion h
    · rename_i hc ht
      simp only [Except.ok.injEq] at h
      exact ⟨h.symm, by simpa using hc, by simpa using ht⟩

theorem decodeHeader_ok {s s1 : List Nat} {h : Header}
    (hd : decodeHeader s = .ok (h, s1)) :
    44 ≤ s.length ∧ s1 = s.drop 44 ∧
      ((h = mkHdr 1 (s.take 44) ∧ (s.take 44).getD 4 0 = 0) ∨
       (h = mkHdr 2 (s.take 44) ∧ (s.take 44).getD 4 0 = 50) ∨
       (h = mkHdr 3 (s.take 44) ∧ (s.take 44).getD 4 0 = 51)) := by
  unfold decodeHeader at hd
  split at hd
  · exact Except.noConfusion hd
  · rename_i x1 hbuf s1' heq
    obtain ⟨hb, hr, hle⟩ := readExact_ok heq
    subst hb; subst hr
    split at hd
    · exact Except.noConfusion hd
    · split at hd
      · exact Except.noConfusion hd
      · split at hd
        · exact Except.noConfusion hd
        · split at hd
          · rename_i x2 hver
            simp only [Except.ok.injEq, Prod.mk.injEq] at hd
            exact ⟨hle, hd.2.symm, Or.inl ⟨hd.1.symm, hver⟩⟩
          · rename_i x2 hver
            simp only [Except.ok.injEq, Prod.mk.injEq] at hd
            exact ⟨hle, hd.2.symm, Or.inr (Or.inl ⟨hd.1.symm, hver⟩)⟩
          · rename_i x2 hver
            simp only [Except.ok.injEq, Prod.mk.injEq] at hd
            exact ⟨hle, hd.2.symm, Or.inr (Or.inr ⟨hd.1.symm, hver⟩)⟩
          · exact Except.noConfusion hd

theorem decodeHeader_append {s t s1 : List Nat} {h : Header}
    (hd : decodeHeader s = .ok (h, s1)) :
    decodeHeader (s ++ t) = .ok (h, s1 ++ t) := by
  unfold decodeHeader at hd ⊢
  split at hd
  · exact Except.noConfusion hd
  · rename_i x1 hbuf s1' heq
    rw [readExact_append heq]
    dsimp only
    split at hd
    · exact Except.noConfusion hd
    · split at hd
      · exact Except.noConfusion hd
      · split at hd
        · exact Except.noConfusion hd
        · rename_i hmagic hstd hut
          rw [if_neg hmagic, if_neg hstd, if_neg hut]
          split at hd <;>
            [skip; skip; skip; exact Except.noConfusion hd] <;>
          · simp only [Except.ok.injEq, Prod.mk.injEq] at hd ⊢
            exact ⟨hd.1, by rw [← hd.2]⟩

theorem parse_internal_ok_elim {v : Bool} {s rest : List Nat} {r : TimeZoneInfo}
    (hp : parse_internal v s = .ok (r, rest)) :
    ∃ h s1 tt s2 ttypes s3 ltt s4 desig s5 leaps s6 stdbuf s7 lstd utbuf s8 lut,
      decodeHeader s = .ok (h, s1) ∧
      readTimes v h.timecnt s1 = .ok (tt, s2) ∧
      readExact h.timecnt s2 = .ok (ttypes, s3) ∧
      readLocalTimeTypes h.typecnt s3 = .ok (ltt, s4) ∧
      readExact h.charcnt s4 = .ok (desig, s5) ∧
      readLeaps v h.leapcnt s5 = .ok (leaps, s6) ∧
      readExact h.isstdcnt s6 = .ok (stdbuf, s7) ∧
      decodeIsStd stdbuf = .ok lstd ∧
      readExact h.isutcnt s7 = .ok (utbuf, s8) ∧
      decodeIsUT utbuf = .ok lut ∧
      rest = s8 ∧
      r = { version := h.version, transition_times := tt, transition_types := ttypes,
            local_time_types := ltt, time_zone_designations := desig,
            leap_second_records := leaps, is_std := lstd, is_ut := lut } ∧
      comboViolation lstd lut = false ∧
      typeViolation ttypes ltt.length = false := by
  unfold parse_internal at hp
  repeat' split at hp
  all_goals try exact Except.noConfusion hp
  rename_i x1 h s1 heq1 x2 tt s2 heq2 x3 ttypes s3 heq3 x4 ltt s4 heq4 x5 desig s5
    heq5 x6 leaps s6 heq6 x7 stdbuf s7 heq7 x8 lstd heq8 x9 utbuf s8 heq9 x10 lut
    heq10 x11 rr heq11
  simp only [Except.ok.injEq, Prod.mk.injEq] at hp
  obtain ⟨hrr, hcv, htv⟩ := checkResult_ok heq11
  refine ⟨h, s1, tt, s2, ttypes, s3, ltt, s4, desig, s5, leaps, s6, stdbuf, s7, lstd,
    utbuf, s8, lut, heq1, heq2, heq3, heq4, heq5, heq6, heq7, heq8, heq9, heq10,
    hp.2.symm, ?_, ?_, ?_⟩
  · rw [← hp.1, hrr]
  · simpa using hcv
  · simpa using htv

theorem parse_internal_append {v : Bool} {s rest : List Nat} {r : TimeZoneInfo}
    (t : List Nat) (hp : parse_internal v s = .ok (r, rest)) :
    parse_internal v (s ++ t) = .ok (r, rest ++ t) := by
  obtain ⟨h, s1, tt, s2, ttypes, s3, ltt, s4, desig, s5, leaps, s6, stdbuf, s7, lstd,
    utbuf, s8, lut, heq1, heq2, heq3, heq4, heq5, heq6, heq7, heq8, heq9, heq10,
    hrest, hrec, hcv, htv⟩ := parse_internal_ok_elim hp
  subst hrest
  have hcr : checkResult r = .ok r := by
    unfold checkResult
    rw [hrec]
    dsimp only
    rw [hcv, htv]
    simp
  unfold parse_internal
  rw [decodeHeader_append heq1]
  dsimp only
  rw [readTimes_append t heq2]
  dsimp only
  rw [readExact_append heq3]
  dsimp only
  rw [readLocalTimeTypes_append t heq4]
  dsimp only
  rw [readExact_append heq5]
  dsimp only
  rw [readLeaps_append t heq6]
  dsimp only
  rw [readExact_append heq7]
  dsimp only
  rw [heq8]
  dsimp only
  rw [readExact_append heq9]
  dsimp only
  rw [heq10]
  dsimp only
  rw [← hrec, hcr]

/-! ### The disallowed wall+universal combination check -/

theorem comboViolation_of {lstd : List IsStd} {lut : List IsUT} {i : Nat}
    (h1 : lstd.getD i IsStd.Wall = IsStd.Wall)
    (h2 : lut.getD i IsUT.Local = IsUT.UT) :
    comboViolation lstd lut = true := by
  have hi : i < lut.length := by
    by_contra hge
    rw [List.getD_eq_default _ _ (by omega)] at h2
    exact IsUT.noConfusion h2
  unfold comboViolation
  rw [List.any_eq_true]
  refine ⟨i, List.mem_range.mpr (by omega), ?_⟩
  rw [h1, h2]
  rfl

theorem comboViolation_false_at {lstd : List IsStd} {lut : List IsUT}
    (h : comboViolation lstd lut = false) (i : Nat) :
    ¬(lstd.getD i IsStd.Wall = IsStd.Wall ∧ lut.getD i IsUT.Local = IsUT.UT) := by
  intro hc
  rw [comboViolation_of hc.1 hc.2] at h
  exact Bool.noConfusion h

theorem checkResult_error_of_combo {r : TimeZoneInfo} {i : Nat}
    (h1 : r.is_std.getD i IsStd.Wall = IsStd.Wall)
    (h2 : r.is_ut.getD i IsUT.Local = IsUT.UT) :
    checkResult r = .error (.invalidFormat "transition times cannot be universal + wall") := by
  unfold checkResult
  rw [comboViolation_of h1 h2]
  simp

theorem decodeIsUT_mem : ∀ {bs : List Nat} {l : List IsUT},
    decodeIsUT bs = .ok l → (IsUT.UT ∈ l ↔ 1 ∈ bs) := by
  intro bs
  induction bs with
  | nil =>
    intro l h
    unfold decodeIsUT at h
    simp only [Except.ok.injEq] at h
    rw [← h]
    simp
  | cons b bs ih =>
    intro l h
    unfold decodeIsUT at h
    split at h
    · split at h
      · exact Except.noConfusion h
      · rename_i hb x1 l0 heq
        simp only [Except.ok.injEq] at h
        rw [← h]
        simp only [List.mem_cons, ih heq]
        constructor
        · rintro (hc | hc)
          · exact IsUT.noConfusion hc
          · exact Or.inr hc
        · rintro (hc | hc)
          · omega
          · exact Or.inr hc
    · split at h
      · exact Except.noConfusion h
      · rename_i hb x1 l0 heq
        simp only [Except.ok.injEq] at h
        rw [← h]
        simp [List.mem_cons, ih heq]
    · exact Except.noConfusion h

/-! ### Designation scanning -/

theorem scanLoop_spec : ∀ (k : Nat) (blob : List Nat) (i : Nat),
    blob.length ≤ i + k →
    scanLoop k blob i = i + ((blob.drop i).takeWhile (fun b => b != 0)).length := by
  intro k
  induction k with
  | zero =>
    intro blob i hk
    unfold scanLoop
    rw [List.drop_eq_nil_of_le (by omega)]
    simp
  | succ k ih =>
    intro blob i hk
    unfold scanLoop
    by_cases hz : blob.getD i 0 = 0
    · rw [if_pos hz]
      by_cases hi : i < blob.length
      · rw [List.drop_eq_getElem_cons hi]
        rw [← List.getD_eq_getElem blob 0 hi, hz]
        simp [List.takeWhile_cons]
      · rw [List.drop_eq_nil_of_le (by omega)]
        simp
    · rw [if_neg hz]
      have hi : i < blob.length := by
        by_contra hge
        exact hz (List.getD_eq_default _ _ (by omega))
      rw [ih blob (i + 1) (by omega)]
      rw [List.drop_eq_getElem_cons hi]
      rw [← List.getD_eq_getElem blob 0 hi]
      have hp : (blob.getD i 0 != 0) = true := by simpa using hz
      rw [List.takeWhile_cons, if_pos hp]
      rw [List.length_cons]
      omega

theorem scanEnd_spec (blob : List Nat) (i : Nat) :
    scanEnd blob i = i + ((blob.drop i).takeWhile (fun b => b != 0)).length :=
  scanLoop_spec (blob.length - i) blob i (by omega)

theorem take_length_takeWhile {α : Type} [DecidableEq α] :
    ∀ (l : List α) (p : α → Bool), l.take (l.takeWhile p).length = l.takeWhile p := by
  intro l
  induction l with
  | nil => intro p; rfl
  | cons b bs ih =>
    intro p
    rw [List.takeWhile_cons]
    by_cases hp : p b
    · rw [if_pos hp, List.length_cons, List.take_succ_cons, ih]
    · rw [if_neg hp]
      rfl

theorem desig_slice (blob : List Nat) (i : Nat) :
    (blob.take (scanEnd blob i)).drop i = (blob.drop i).takeWhile (fun b => b != 0) := by
  rw [scanEnd_spec]
  rw [← List.take_drop i ((blob.drop i).takeWhile (fun b => b != 0)).length blob]
  exact take_length_takeWhile _ _

theorem ut_mem_getD {lut : List IsUT} (hmem : IsUT.UT ∈ lut) :
    ∃ i, lut.getD i IsUT.Local = IsUT.UT := by
  obtain ⟨i, hlt, heq⟩ := List.mem_iff_getElem.mp hmem
  exact ⟨i, by rw [List.getD_eq_getElem _ _ hlt]; exact heq⟩

/-! ### Claim theorems -/

theorem wrapI64_eq_self {x : Int} (h1 : -(2 ^ 63) ≤ x) (h2 : x < 2 ^ 63) :
    wrapI64 x = x := by
  unfold wrapI64
  norm_num at h1 h2 ⊢
  omega

/-- C3 (counterexample): at the largest signed 64-bit instant and a rule
with offset +1 — inputs inside the claim's "every signed 64-bit instant"
scope — the `i64` addition of `to_ut` wraps to the smallest instant
instead of returning the mathematical sum `t + offset`. -/
theorem c3_overflow_counterexample :
    -(2 ^ 63) ≤ (2 ^ 63 - 1 : Int) ∧ (2 ^ 63 - 1 : Int) < 2 ^ 63 ∧
    to_ut (Time.LocalStandard (2 ^ 63 - 1)) ruleOne = -(2 ^ 63) ∧
    to_ut (Time.LocalStandard (2 ^ 63 - 1)) ruleOne ≠ (2 ^ 63 - 1) + 1 := by
  have h3 : to_ut (Time.LocalStandard (2 ^ 63 - 1)) ruleOne = -(2 ^ 63) := by
    simp only [to_ut, ruleOne, wrapI64]
    norm_num
  refine ⟨by norm_num, by norm_num, h3, ?_⟩
  rw [h3]
  norm_num

/-- C3 (amended): `to_ut` is the identity on `UT(t)` for every instant
`t` and local rule `L`; on `LocalStandard(t)` it equals
`t + L.ut_offset_secs` whenever that sum lies in the signed 64-bit
range; on `LocalWall(t)` it equals `t + L.ut_offset_secs + 3600` when
`L.is_dst` holds and both intermediate sums lie in the range, and
`t + L.ut_offset_secs` when `L.is_dst` does not hold and that sum lies
in the range.  Outside the range the additions wrap (see the
counterexample). -/
theorem c3_to_ut_conversion (t : Int) (L : LocalTimeType) :
    to_ut (Time.UT t) L = t ∧
    (-(2 ^ 63) ≤ t + L.ut_offset_secs → t + L.ut_offset_secs < 2 ^ 63 →
      to_ut (Time.LocalStandard t) L = t + L.ut_offset_secs) ∧
    (L.is_dst = true → -(2 ^ 63) ≤ t + L.ut_offset_secs →
      t + L.ut_offset_secs < 2 ^ 63 →
      -(2 ^ 63) ≤ t + L.ut_offset_secs + 3600 →
      t + L.ut_offset_secs + 3600 < 2 ^ 63 →
      to_ut (Time.LocalWall t) L = t + L.ut_offset_secs + 3600) ∧
    (L.is_dst = false → -(2 ^ 63) ≤ t + L.ut_offset_secs →
      t + L.ut_offset_secs < 2 ^ 63 →
      to_ut (Time.LocalWall t) L = t + L.ut_offset_secs) := by
  refine ⟨rfl, ?_, ?_, ?_⟩
  · intro h1 h2
    unfold to_ut
    exact wrapI64_eq_self h1 h2
  · intro hd h1 h2 h3 h4
    unfold to_ut
    dsimp only
    rw [hd, if_pos rfl, wrapI64_eq_self h1 h2]
    have h60 : (60 : Int) * 60 = 3600 := by norm_num
    rw [h60]
    exact wrapI64_eq_self h3 h4
  · intro hd h1 h2
    unfold to_ut
    dsimp only
    rw [hd, if_neg (by decide), wrapI64_eq_self h1 h2, add_zero]
    exact wrapI64_eq_self h1 h2

/-- Witness for C3: the conversion evaluated on concrete in-range rules
with DST set and unset. -/
theorem c3_to_ut_conversion_witness :
    (-(2 ^ 63) ≤ (1000 : Int) + (-28800) ∧ ((1000 : Int) + (-28800)) < 2 ^ 63) ∧
    to_ut (Time.UT 5) ruleDst = 5 ∧
    to_ut (Time.LocalStandard 1000) ruleStd = 1000 + (-28800) ∧
    to_ut (Time.LocalWall 1000) ruleDst = 1000 + (-28800) + 3600 ∧
    to_ut (Time.LocalWall 1000) ruleStd = 1000 + (-28800) :=
  ⟨⟨by norm_num, by norm_num⟩,
   (c3_to_ut_conversion 5 ruleDst).1,
   (c3_to_ut_conversion 1000 ruleStd).2.1 (by norm_num [ruleStd]) (by norm_num [ruleStd]),
   (c3_to_ut_conversion 1000 ruleDst).2.2.1 rfl (by norm_num [ruleDst]) (by norm_num [ruleDst])
     (by norm_num [ruleDst]) (by norm_num [ruleDst]),
   (c3_to_ut_conversion 1000 ruleStd).2.2.2 rfl (by norm_num [ruleStd]) (by norm_num [ruleStd])⟩

/-- C9: when the designation lookup for a local time type with
designation index `i` succeeds, the exposed text is exactly the bytes of
the designation blob from `i` up to (excluding) the first NUL byte at or
after `i`, or up to the end of the blob when no NUL follows. -/
theorem c9_designation_lookup (tz : TimeZoneInfo) (idx : Nat)
    (typ : LocalTimeTypeRecord) (l : LocalTimeType)
    (ht : tz.local_time_types.get? idx = some typ)
    (hl : local_time_type tz idx = some l) :
    l.desig = (tz.time_zone_designations.drop typ.desig_idx).takeWhile
      (fun b => b != 0) := by
  unfold local_time_type at hl
  rw [ht] at hl
  dsimp only at hl
  split at hl
  · simp only [Option.some.injEq] at hl
    rw [← hl]
    exact desig_slice _ _
  · exact Option.noConfusion hl

/-- Witness for C9: lookup in `tz9` at index 0, designation index 1 into
the blob `[65, 66, 0, 67]`, yields exactly `[66]`. -/
theorem c9_designation_lookup_witness :
    tz9.local_time_types.get? 0 =
      some { ut_off_secs := 0, is_dst := false, desig_idx := 1 } ∧
    local_time_type tz9 0 =
      some { desig := [66], ut_offset_secs := 0, is_dst := false } ∧
    ({ desig := [66], ut_offset_secs := 0, is_dst := false } :
        LocalTimeType).desig =
      (tz9.time_zone_designations.drop 1).takeWhile (fun b => b != 0) :=
  ⟨rfl, rfl, c9_designation_lookup tz9 0 _ _ rfl rfl⟩

/-- C6: the disallowed `(Wall, UT)` indicator combination at any index
makes the validation pass fail with the corresponding `InvalidFormat`
error, and consequently no database produced by a successful decode
attempt carries that combination at any index (missing indicators read as
Wall and Local). -/
theorem c6_wall_ut_rejected :
    (∀ (r : TimeZoneInfo) (i : Nat),
        r.is_std.getD i IsStd.Wall = IsStd.Wall →
        r.is_ut.getD i IsUT.Local = IsUT.UT →
        checkResult r =
          .error (.invalidFormat "transition times cannot be universal + wall")) ∧
    (∀ (v : Bool) (s rest : List Nat) (r : TimeZoneInfo),
        parse_internal v s = .ok (r, rest) → ∀ i : Nat,
        ¬(r.is_std.getD i IsStd.Wall = IsStd.Wall ∧
          r.is_ut.getD i IsUT.Local = IsUT.UT)) := by
  constructor
  · intro r i h1 h2
    exact checkResult_error_of_combo h1 h2
  · intro v s rest r hp i
    obtain ⟨h, s1, tt, s2, ttypes, s3, ltt, s4, desig, s5, leaps, s6, stdbuf, s7,
      lstd, utbuf, s8, lut, _, _, _, _, _, _, _, _, _, _, _, hrec, hcv, _⟩ :=
      parse_internal_ok_elim hp
    rw [hrec]
    exact comboViolation_false_at hcv i

/-- Witness for C6: the combination is rejected on `c6r`, and the
database decoded from `c2Stream` has no such combination at index 0. -/
theorem c6_wall_ut_rejected_witness :
    checkResult c6r =
      .error (.invalidFormat "transition times cannot be universal + wall") ∧
    ¬(c2Db.is_std.getD 0 IsStd.Wall = IsStd.Wall ∧
      c2Db.is_ut.getD 0 IsUT.Local = IsUT.UT) :=
  ⟨c6_wall_ut_rejected.1 c6r 0 rfl rfl,
   c6_wall_ut_rejected.2 true c2Stream [] c2Db rfl 0⟩

/-- C10: decoded UT/local indicators are UT exactly where the indicator
byte is 1; a result whose std/wall table is empty and whose UT/local
table marks some type as UT fails the validation pass with the
wall+universal `InvalidFormat` error (the check substitutes Wall for
every missing std/wall indicator); hence no decode attempt returns a
database with an omitted std/wall table and a UT indicator. -/
theorem c10_missing_std_table_blocks_ut :
    (∀ (utbuf : List Nat) (lut : List IsUT),
        decodeIsUT utbuf = .ok lut → (IsUT.UT ∈ lut ↔ 1 ∈ utbuf)) ∧
    (∀ r : TimeZoneInfo, r.is_std = [] → IsUT.UT ∈ r.is_ut →
        checkResult r =
          .error (.invalidFormat "transition times cannot be universal + wall")) ∧
    (∀ (v : Bool) (s rest : List Nat) (r : TimeZoneInfo),
        parse_internal v s = .ok (r, rest) → r.is_std = [] →
        IsUT.UT ∉ r.is_ut) := by
  refine ⟨fun utbuf lut hd => decodeIsUT_mem hd, ?_, ?_⟩
  · intro r hstd hmem
    obtain ⟨i, hgd⟩ := ut_mem_getD hmem
    have h1 : r.is_std.getD i IsStd.Wall = IsStd.Wall := by
      rw [hstd]
      simp [List.getD]
    exact checkResult_error_of_combo h1 hgd
  · intro v s rest r hp hstd hmem
    obtain ⟨h, s1, tt, s2, ttypes, s3, ltt, s4, desig, s5, leaps, s6, stdbuf, s7,
      lstd, utbuf, s8, lut, _, _, _, _, _, _, _, _, _, _, _, hrec, hcv, _⟩ :=
      parse_internal_ok_elim hp
    rw [hrec] at hstd hmem
    dsimp only at hstd hmem
    obtain ⟨i, hgd⟩ := ut_mem_getD hmem
    have h1 : lstd.getD i IsStd.Wall = IsStd.Wall := by
      rw [hstd]
      simp [List.getD]
    rw [comboViolation_of h1 hgd] at hcv
    exact Bool.noConfusion hcv

/-- Witness for C10: byte 1 decodes to UT; the empty-std/UT database
`c10r` is rejected; the decoded `c2Db` has an empty std table and no UT
indicator. -/
theorem c10_missing_std_table_blocks_ut_witness :
    (IsUT.UT ∈ [IsUT.UT] ↔ 1 ∈ [1]) ∧
    checkResult c10r =
      .error (.invalidFormat "transition times cannot be universal + wall") ∧
    IsUT.UT ∉ c2Db.is_ut :=
  ⟨c10_missing_std_table_blocks_ut.1 [1] [IsUT.UT] rfl,
   c10_missing_std_table_blocks_ut.2.1 c10r rfl (by decide),
   c10_missing_std_table_blocks_ut.2.2 true c2Stream [] c2Db rfl rfl⟩

/-- C7: a stream whose 44-byte header has `isstdcnt` different from both
0 and `typecnt`, or `isutcnt` different from both 0 and `typecnt`, makes
the decode attempt fail with an `InvalidFormat` error (in either mode). -/
theorem c7_count_cross_check (v : Bool) (s : List Nat)
    (hlen : 44 ≤ s.length)
    (hbad : (beNat (((s.take 44).drop 24).take 4) ≠ 0 ∧
             beNat (((s.take 44).drop 24).take 4) ≠
               beNat (((s.take 44).drop 36).take 4)) ∨
            (beNat (((s.take 44).drop 20).take 4) ≠ 0 ∧
             beNat (((s.take 44).drop 20).take 4) ≠
               beNat (((s.take 44).drop 36).take 4))) :
    ∃ msg, parse_internal v s = .error (.invalidFormat msg) := by
  have hre : readExact 44 s = .ok (s.take 44, s.drop 44) := by
    unfold readExact
    rw [if_pos hlen]
  have hd : ∃ msg, decodeHeader s = .error (.invalidFormat msg) := by
    unfold decodeHeader
    rw [hre]
    dsimp only
    by_cases hmagic : (s.take 44).take 4 ≠ magicBytes
    · rw [if_pos hmagic]
      exact ⟨_, rfl⟩
    · rw [if_neg hmagic]
      by_cases hstd : beNat (((s.take 44).drop 24).take 4) ≠ 0 ∧
          beNat (((s.take 44).drop 24).take 4) ≠
            beNat (((s.take 44).drop 36).take 4)
      · rw [if_pos hstd]
        exact ⟨_, rfl⟩
      · rcases hbad with hb | hut
        · exact absurd hb hstd
        · rw [if_neg hstd, if_pos hut]
          exact ⟨_, rfl⟩
  obtain ⟨msg, hd⟩ := hd
  refine ⟨msg, ?_⟩
  unfold parse_internal
  rw [hd]

/-- Witness for C7: the header `c7Stream` carries `isstdcnt = 5` with
`typecnt = 0` and is rejected. -/
theorem c7_count_cross_check_witness :
    44 ≤ c7Stream.length ∧
    (∃ msg, parse_internal true c7Stream = .error (.invalidFormat msg)) :=
  ⟨by decide,
   c7_count_cross_check true c7Stream (by decide) (Or.inl ⟨by decide, by decide⟩)⟩

/-- C4: when the mandatory v1-mode pass succeeds with version 2 or 3, a
failing second pass is discarded and `parse` returns the first result,
while a succeeding second pass becomes the final answer. -/
theorem c4_second_pass_fallback (s rest : List Nat) (r1 : TimeZoneInfo)
    (h1 : parse_internal true s = .ok (r1, rest))
    (hv : r1.version = 2 ∨ r1.version = 3) :
    (∀ e : ParseErr, parse_internal false rest = .error e → parse s = .ok r1) ∧
    (∀ (r2 : TimeZoneInfo) (rest2 : List Nat),
        parse_internal false rest = .ok (r2, rest2) → parse s = .ok r2) := by
  have hne : ¬(r1.version = 1) := by rcases hv with h | h <;> omega
  constructor
  · intro e he
    unfold parse
    rw [h1]
    dsimp only
    rw [if_neg hne, he]
  · intro r2 rest2 he
    unfold parse
    rw [h1]
    dsimp only
    rw [if_neg hne, he]

/-- Witness for C4: `v2Stream` is a version-2 body with nothing after it;
the second pass hits end of stream and `parse` returns the v1 result. -/
theorem c4_second_pass_fallback_witness :
    parse_internal true v2Stream = .ok (v2Db, []) ∧
    (v2Db.version = 2 ∨ v2Db.version = 3) ∧
    parse_internal false ([] : List Nat) = .error .ioShortRead ∧
    parse v2Stream = .ok v2Db :=
  ⟨rfl, Or.inl rfl, rfl,
   (c4_second_pass_fallback v2Stream [] v2Db rfl (Or.inl rfl)).1 .ioShortRead rfl⟩

/-- C5: a successful decode attempt produces sequences whose lengths are
exactly the counts of the decoded header: `transition_times` and
`transition_types` have length `timecnt`, `local_time_types` length
`typecnt`, `time_zone_designations` length `charcnt`,
`leap_second_records` length `leapcnt`, `is_std` length `isstdcnt` and
`is_ut` length `isutcnt`. -/
theorem c5_lengths_match_header (v : Bool) (s rest s1 : List Nat)
    (r : TimeZoneInfo) (h : Header)
    (hp : parse_internal v s = .ok (r, rest))
    (hd : decodeHeader s = .ok (h, s1)) :
    r.transition_times.length = h.timecnt ∧
    r.transition_types.length = h.timecnt ∧
    r.local_time_types.length = h.typecnt ∧
    r.time_zone_designations.length = h.charcnt ∧
    r.leap_second_records.length = h.leapcnt ∧
    r.is_std.length = h.isstdcnt ∧
    r.is_ut.length = h.isutcnt := by
  obtain ⟨h', s1', tt, s2, ttypes, s3, ltt, s4, desig, s5, leaps, s6, stdbuf, s7,
    lstd, utbuf, s8, lut, hd', h2, h3, h4, h5, h6, h7, h8, h9, h10, _, hrec, _, _⟩ :=
    parse_internal_ok_elim hp
  rw [hd'] at hd
  simp only [Except.ok.injEq, Prod.mk.injEq] at hd
  obtain ⟨hh, _⟩ := hd
  subst hh
  rw [hrec]
  dsimp only
  refine ⟨readTimes_length h2, readExact_length h3, readLocalTimeTypes_length h4,
    readExact_length h5, readLeaps_length h6, ?_, ?_⟩
  · rw [decodeIsStd_length h8, readExact_length h7]
  · rw [decodeIsUT_length h10, readExact_length h9]

/-- Witness for C5: the `c2Stream` decode has sequence lengths 1, 1, 1,
4, 0, 0, 0 matching its header counts. -/
theorem c5_lengths_match_header_witness :
    parse_internal true c2Stream = .ok (c2Db, []) ∧
    decodeHeader c2Stream = .ok (c2Hdr, c2Stream.drop 44) ∧
    (c2Db.transition_times.length = c2Hdr.timecnt ∧
     c2Db.transition_types.length = c2Hdr.timecnt ∧
     c2Db.local_time_types.length = c2Hdr.typecnt ∧
     c2Db.time_zone_designations.length = c2Hdr.charcnt ∧
     c2Db.leap_second_records.length = c2Hdr.leapcnt ∧
     c2Db.is_std.length = c2Hdr.isstdcnt ∧
     c2Db.is_ut.length = c2Hdr.isutcnt) :=
  ⟨rfl, rfl,
   c5_lengths_match_header true c2Stream [] (c2Stream.drop 44) c2Db c2Hdr rfl rfl⟩

/-- C8: when the header's version byte is 0 the v1 result is final —
`parse` returns it directly — and appending arbitrary trailing bytes
after the complete v1 body leaves the result unchanged. -/
theorem c8_v1_final_and_append_invariant (s extra rest : List Nat)
    (r : TimeZoneInfo)
    (hp : parse_internal true s = .ok (r, rest))
    (hb : (s.take 44).getD 4 0 = 0) :
    r.version = 1 ∧ parse s = .ok r ∧ parse (s ++ extra) = .ok r := by
  have hver : r.version = 1 := by
    obtain ⟨h, s1, tt, s2, ttypes, s3, ltt, s4, desig, s5, leaps, s6, stdbuf, s7,
      lstd, utbuf, s8, lut, hd', _, _, _, _, _, _, _, _, _, _, hrec, _, _⟩ :=
      parse_internal_ok_elim hp
    obtain ⟨_, _, hcase⟩ := decodeHeader_ok hd'
    rw [hrec]
    dsimp only
    rcases hcase with ⟨hh, _⟩ | ⟨hh, hbyte⟩ | ⟨hh, hbyte⟩
    · rw [hh]
      rfl
    · rw [hb] at hbyte
      exact absurd hbyte (by decide)
    · rw [hb] at hbyte
      exact absurd hbyte (by decide)
  refine ⟨hver, ?_, ?_⟩
  · unfold parse
    rw [hp]
    dsimp only
    rw [if_pos hver]
  · unfold parse
    rw [parse_internal_append extra hp]
    dsimp only
    rw [if_pos hver]

/-- Witness for C8: the all-zero-count v1 stream decodes to `c8Db`, and
appending the bytes `[7, 7, 7]` leaves `parse` unchanged. -/
theorem c8_v1_final_and_append_invariant_witness :
    parse_internal true c8Stream = .ok (c8Db, []) ∧
    (c8Stream.take 44).getD 4 0 = 0 ∧
    c8Db.version = 1 ∧ parse c8Stream = .ok c8Db ∧
    parse (c8Stream ++ [7, 7, 7]) = .ok c8Db := by
  have hmain := c8_v1_final_and_append_invariant c8Stream [7, 7, 7] [] c8Db rfl
    (by decide)
  exact ⟨rfl, by decide, hmain.1, hmain.2.1, hmain.2.2⟩

/-- C1 (evaluation at the failing input): the stream `c1Stream` has
`typecnt = 1` and the single transition-type entry 1, which is greater
than or equal to `typecnt`; the decoder nevertheless accepts it — the
range check only rejects indices strictly greater than the table length —
and iterating the resulting database faults on the out-of-range index. -/
theorem c1_equal_index_accepted :
    parse c1Stream = .ok c1Db ∧
    c1Db.transition_types = [1] ∧
    c1Db.local_time_types.length = 1 ∧
    typeViolation c1Db.transition_types c1Db.local_time_types.length = false ∧
    iterNext c1Db 0 = .fault :=
  ⟨rfl, rfl, rfl, rfl, rfl⟩

/-- C2 (evaluation at the failing input): the minimal stream `c2Stream`
decodes successfully to a database with one transition and empty
`is_std`/`is_ut` tables, but the first `next` call faults — the iterator
indexes the empty indicator tables directly instead of substituting the
Wall/Local defaults. -/
theorem c2_iterator_faults_on_empty_indicators :
    parse c2Stream = .ok c2Db ∧
    c2Db.is_std = [] ∧ c2Db.is_ut = [] ∧
    c2Db.transition_times.length = 1 ∧
    iterNext c2Db 0 = .fault :=
  ⟨rfl, rfl, rfl, rfl, rfl⟩

end Tzif
